import Mathlib

/-
Verification of the litemongo storage layer: a shallow embedding of the
Server/Database/Collection Store hierarchy and its three backend adapters
(sqlite_store.py, h5py_store.py, pytables_store.py) together with the
generic persistent-mapping layer (TableDict / GroupDict / IndexDict).

Python values that can pass through the BSON codec are modelled by the
inductive `PyVal`; Python dictionaries (both top-level document maps and
the caches of the store hierarchy) are modelled by insertion-ordered
association lists (`AList`).
-/

set_option autoImplicit false

namespace LiteMongo

/-- A Python value as it appears in documents and index descriptors.
`tuple` and `list` are distinct, as in Python (`(1,2) == [1,2]` is false);
`null` is Python `None`.  Structural equality on `PyVal` models Python
`==` on these values. -/
inductive PyVal where
  | int (n : Int)
  | str (s : String)
  | bool (b : Bool)
  | null
  | list (xs : List PyVal)
  | tuple (xs : List PyVal)
  | doc (fs : List (String × PyVal))

/-- Insertion-ordered association list, modelling a Python `dict`
(and the key-to-row mapping of a sqlite table, whose iteration order is
`ROWID` = insertion order). -/
abbrev AList (κ α : Type) := List (κ × α)

namespace AList

variable {κ α : Type} [DecidableEq κ]

/-- Key lookup, first matching entry. -/
def find? : AList κ α → κ → Option α
  | [], _ => Option.none
  | p :: rest, k => if p.1 = k then Option.some p.2 else find? rest k

/-- Overwrite-in-place-or-append insertion: Python `d[k] = v` keeps the
position of an existing key; sqlite `ON CONFLICT DO UPDATE` keeps the row. -/
def insert : AList κ α → κ → α → AList κ α
  | [], k, v => [(k, v)]
  | p :: rest, k, v => if p.1 = k then (k, v) :: rest else p :: insert rest k v

/-- Removal of a key (Python `del d[k]` / `d.pop(k, None)` / SQL `DELETE`). -/
def eraseKey : AList κ α → κ → AList κ α
  | [], _ => []
  | p :: rest, k => if p.1 = k then eraseKey rest k else p :: eraseKey rest k

/-- Delete-then-append insertion: the pytables `GroupDict.__setitem__`
removes the old node and writes a fresh node at the end. -/
def insertMove (m : AList κ α) (k : κ) (v : α) : AList κ α :=
  eraseKey m k ++ [(k, v)]

end AList

/-! ## The BSON codec

All three backends store documents with `bson.encode` and read them back
with `bson.decode` (sqlite_store.py `TableDict._encode_doc`/`_decode_doc`,
h5py_store.py / pytables_store.py `GroupDict._encode_doc`/`_decode_doc`).
The composite effect of the Python codec on a value is normalization:
BSON has no tuple type, so every tuple comes back as a list; all other
scalar values and document structure round-trip exactly.  We model the
encoded form as the normalized `PyVal` (`bsonNorm` = encode, decoding is
the identity on that form). -/

mutual

/-- Effect of `bson.encode` on a Python value: tuples degrade to lists,
everything else round-trips exactly. -/
def bsonNorm : PyVal → PyVal
  | .int n => .int n
  | .str s => .str s
  | .bool b => .bool b
  | .null => .null
  | .list xs => .list (bsonNormList xs)
  | .tuple xs => .list (bsonNormList xs)
  | .doc fs => .doc (bsonNormFields fs)

def bsonNormList : List PyVal → List PyVal
  | [] => []
  | x :: xs => bsonNorm x :: bsonNormList xs

def bsonNormFields : List (String × PyVal) → List (String × PyVal)
  | [] => []
  | (k, v) :: fs => (k, bsonNorm v) :: bsonNormFields fs

end

/-- Field access `d['f']` / `d.get('f')` on a decoded document. -/
def pyDocGet : PyVal → String → Option PyVal
  | .doc fs, k => AList.find? fs k
  | _, _ => Option.none

/-- The TTL registration test of `CollectionStore.create_index` (identical
in all three backends): `index_dict.get('expireAfterSeconds') is not None`. -/
def hasTTL (d : PyVal) : Bool :=
  match pyDocGet d "expireAfterSeconds" with
  | Option.some PyVal.null => false
  | Option.some _ => true
  | Option.none => false

/-! ## Error taxonomy (spec §7) -/

/-- Distinguishable failure kinds surfaced by the storage layer:
`notFound` models Python `KeyError`, `operational` models
`sqlite3.OperationalError` (malformed statement), `backendFail` models a
physical-medium failure, `typeFail`/`keyMissing` model `TypeError` /
`KeyError` raised inside `IndexDict._decode_doc`. -/
inductive StoreErr where
  | notFound
  | operational
  | backendFail
  | typeFail
  | keyMissing
  deriving Repr, DecidableEq

/-! ## The relational backend: SQL statements and `TableDict`

sqlite_store.py `TableDict` issues its upsert through a parameterized
statement (`VALUES(?, ?) ON CONFLICT ... DO UPDATE SET doc=?` with the
data tuple `(key, val, val)`), but builds `__contains__`, `__getitem__`
and `__delitem__` through Python f-strings that interpolate the key
directly into the statement text between single quotes.  We model a
statement as its text plus its bound parameters, and model the engine's
point lookup by re-tokenizing the quoted literal out of the statement
text exactly as SQLite would (a doubled quote is an escaped quote; any
trailing characters after the closing quote make the statement
malformed, raising `sqlite3.OperationalError`). -/

/-- The single-quote character interpolated around the key. -/
def quoteChar : Char := Char.ofNat 39

/-- `f"...'{key}'"`: the key wrapped in single quotes, exactly as the
f-strings in `TableDict.__contains__`/`__getitem__`/`__delitem__` build it. -/
def quoteStr (s : String) : String :=
  String.mk (quoteChar :: s.data ++ [quoteChar])

/-- A value bound to a `?` placeholder. -/
inductive SqlParam where
  | s (v : String)
  | blob (v : PyVal)

/-- A statement as handed to `cursor.execute`: its text and its bound
parameters. -/
structure SqlStmt where
  text : String
  params : List SqlParam

/-- `TableDict.__contains__`: `f"SELECT {ID} from {table} where {ID}='{key}'"`,
executed with no parameters. -/
def sqContainsStmt (table key : String) : SqlStmt :=
  { text := "SELECT _id from " ++ table ++ " where _id=" ++ quoteStr key
    params := [] }

/-- `TableDict.__getitem__`: `f"SELECT {DOC} from {table} where {ID}='{key}'"`,
executed with no parameters. -/
def sqSelectDocStmt (table key : String) : SqlStmt :=
  { text := "SELECT doc from " ++ table ++ " where _id=" ++ quoteStr key
    params := [] }

/-- `TableDict.__delitem__`: `f"DELETE FROM {table} WHERE {ID}='{key}'"`,
executed with no parameters. -/
def sqDeleteStmt (table key : String) : SqlStmt :=
  { text := "DELETE FROM " ++ table ++ " WHERE _id=" ++ quoteStr key
    params := [] }

/-- `TableDict.__setitem__` statement text: the key never appears in it. -/
def sqUpsertText (table : String) : String :=
  "INSERT INTO " ++ table ++ " VALUES(?, ?)ON CONFLICT(_id) DO UPDATE SET doc=?"

/-- `TableDict.__setitem__`: parameterized upsert with data `(key, val, val)`. -/
def sqUpsertStmt (table key : String) (blob : PyVal) : SqlStmt :=
  { text := sqUpsertText table
    params := [SqlParam.s key, SqlParam.blob blob, SqlParam.blob blob] }

/-- SQLite tokenization of a string-literal body: consume characters up to
the closing quote, a doubled quote standing for one escaped quote.
Returns the literal and the characters remaining after the closing quote,
or `none` when the literal is unterminated. -/
def parseSqlLit : List Char → Option (List Char × List Char)
  | [] => Option.none
  | [c] => if c = quoteChar then Option.some ([], []) else Option.none
  | c :: c2 :: rest =>
    if c = quoteChar then
      if c2 = quoteChar then
        match parseSqlLit rest with
        | Option.some (lit, rem) => Option.some (quoteChar :: lit, rem)
        | Option.none => Option.none
      else Option.some ([], c2 :: rest)
    else
      match parseSqlLit (c2 :: rest) with
      | Option.some (lit, rem) => Option.some (c :: lit, rem)
      | Option.none => Option.none

/-- The key the engine actually compares `_id` against when executing one
of the interpolated point-lookup statements: the quoted suffix of the
statement text is re-tokenized; the statement is well formed only when
the literal is terminated and nothing follows its closing quote. -/
def sqPointLookupLiteral (key : String) : Except StoreErr String :=
  match (quoteStr key).data with
  | [] => Except.error StoreErr.operational
  | c :: rest =>
    if c = quoteChar then
      match parseSqlLit rest with
      | Option.some (lit, List.nil) => Except.ok (String.mk lit)
      | _ => Except.error StoreErr.operational
    else Except.error StoreErr.operational

/-- One sqlite table (`documents` or `indexes`): `_id TEXT PRIMARY KEY`
mapped to the stored BSON blob, rows in `ROWID` (insertion) order. -/
abbrev SqTable := AList String PyVal

/-- `TableDict.__setitem__`: the parameterized upsert stores the key
verbatim and the BSON-encoded document. -/
def sqTableSet (t : SqTable) (key : String) (d : PyVal) : SqTable :=
  AList.insert t key (bsonNorm d)

/-- `TableDict.__getitem__`: executes the interpolated SELECT; a missing
row raises `KeyError`; the fetched blob is decoded with `bson.decode`. -/
def sqTableGet (t : SqTable) (key : String) : Except StoreErr PyVal :=
  match sqPointLookupLiteral key with
  | Except.error e => Except.error e
  | Except.ok lit =>
    match AList.find? t lit with
    | Option.some b => Except.ok b
    | Option.none => Except.error StoreErr.notFound

/-- `TableDict.__contains__`: executes the interpolated SELECT and tests
whether a row was fetched. -/
def sqTableContains (t : SqTable) (key : String) : Except StoreErr Bool :=
  match sqPointLookupLiteral key with
  | Except.error e => Except.error e
  | Except.ok lit => Except.ok (AList.find? t lit).isSome

/-- `TableDict.__delitem__`: executes the interpolated DELETE; a rowcount
of zero raises `KeyError`. -/
def sqTableDelete (t : SqTable) (key : String) : Except StoreErr SqTable :=
  match sqPointLookupLiteral key with
  | Except.error e => Except.error e
  | Except.ok lit =>
    match AList.find? t lit with
    | Option.some _ => Except.ok (AList.eraseKey t lit)
    | Option.none => Except.error StoreErr.notFound

/-! ## Index descriptor decoding (`IndexDict`) -/

/-- Python `tuple(x)` as applied by `IndexDict._decode_doc` to each element
of the decoded `key` field: a list or tuple becomes a tuple of its
elements, a string becomes a tuple of its one-character strings, anything
else is not iterable and raises `TypeError`. -/
def pyTupleOfElem : PyVal → Except StoreErr PyVal
  | PyVal.list xs => Except.ok (PyVal.tuple xs)
  | PyVal.tuple xs => Except.ok (PyVal.tuple xs)
  | PyVal.str s =>
    Except.ok (PyVal.tuple (s.data.map fun c => PyVal.str (String.singleton c)))
  | _ => Except.error StoreErr.typeFail

/-- `list(map(tuple, xs))`: apply `tuple` to each element, propagating the
first `TypeError`. -/
def mapTuple : List PyVal → Except StoreErr (List PyVal)
  | [] => Except.ok []
  | x :: xs =>
    match pyTupleOfElem x with
    | Except.ok t =>
      match mapTuple xs with
      | Except.ok ts => Except.ok (t :: ts)
      | Except.error e => Except.error e
    | Except.error e => Except.error e

/-- `IndexDict._decode_doc` (textually identical in the three backends):
after `bson.decode`, run
`index_dict['key'] = list(map(tuple, index_dict['key']))`.
Reading `index_dict['key']` raises `KeyError` when the field is absent;
mapping over a non-iterable `key` value raises `TypeError`. -/
def indexDecode : PyVal → Except StoreErr PyVal
  | PyVal.doc fs =>
    (match AList.find? fs "key" with
     | Option.some (PyVal.list xs) =>
       match mapTuple xs with
       | Except.ok ts => Except.ok (PyVal.doc (AList.insert fs "key" (PyVal.list ts)))
       | Except.error e => Except.error e
     | Option.some (PyVal.tuple xs) =>
       match mapTuple xs with
       | Except.ok ts => Except.ok (PyVal.doc (AList.insert fs "key" (PyVal.list ts)))
       | Except.error e => Except.error e
     | Option.some _ => Except.error StoreErr.typeFail
     | Option.none => Except.error StoreErr.keyMissing)
  | _ => Except.error StoreErr.typeFail

/-! ## Collection Store state -/

/-- The state of one Collection Store: the document mapping (keyed by the
backend's encoded key type), the index mapping and TTL-index mapping
(keyed by index name), and the force-created flag (the `is_force_created`
dataset/array in h5py/pytables, the in-memory `_is_force_created`
attribute in sqlite). -/
structure CollState (κ : Type) where
  docs : AList κ PyVal
  indexes : AList String PyVal
  ttl : AList String PyVal
  forced : Bool

/-- The state of a freshly materialized collection: empty group /
freshly created empty tables. -/
def emptyColl {κ : Type} : CollState κ :=
  { docs := [], indexes := [], ttl := [], forced := false }

/-- h5py/pytables `CollectionStore.is_created`:
`self._documents or self.indexes or self._is_force_created`, with Python
truthiness of a mapping being non-emptiness. -/
def grpIsCreated {κ : Type} (st : CollState κ) : Bool :=
  !st.docs.isEmpty || !st.indexes.isEmpty || st.forced

/-- Modelled from the spec: sqlite `CollectionStore.is_empty` is inherited
from the vendored mongomock base class, which is not under src/; spec §3
states the invariant in terms of "documents non-empty", so `is_empty` is
emptiness of the document mapping. -/
def sqIsEmpty (st : CollState String) : Bool := st.docs.isEmpty

/-- sqlite `CollectionStore.is_created`:
`not self.is_empty or self.indexes or self._is_force_created`. -/
def sqIsCreated (st : CollState String) : Bool :=
  !sqIsEmpty st || !st.indexes.isEmpty || st.forced

/-- An `is_created` read is a property access: it produces the flag value
and hands back the store state untouched. -/
def isCreatedQuery {κ : Type} (isC : CollState κ → Bool) (st : CollState κ) :
    Bool × CollState κ :=
  (isC st, st)

/-- `CollectionStore.create` (all three backends): set the force-created
flag (sqlite additionally touches the file, which does not change the
logical state). -/
def collCreate {κ : Type} (st : CollState κ) : CollState κ :=
  { st with forced := true }

/-- h5py/pytables `CollectionStore.drop`: clear the document mapping, the
index mapping and the TTL mapping, and reset the force-created flag. -/
def grpDrop {κ : Type} (st : CollState κ) : CollState κ :=
  { st with docs := [], indexes := [], ttl := [], forced := false }

/-- sqlite `CollectionStore.drop`: close the connection, unlink the
database file, clear the TTL map, reset the flag, and re-open — which
recreates empty `documents` and `indexes` tables. -/
def sqDrop (st : CollState String) : CollState String :=
  { st with docs := [], indexes := [], ttl := [], forced := false }

/-! ## Per-backend key encoding and document operations -/

/-- An h5py object name: h5py accepts both `str` and `bytes` names and the
two never collide in a group. -/
inductive HKey where
  | str (s : String)
  | bytes (bs : List Nat)
  deriving Repr, DecidableEq

/-- h5py `CollectionStore.EMPTY_UTF16 = ''.encode('utf16')`: the two-byte
little-endian byte-order mark. -/
def h5EmptySentinel : HKey := HKey.bytes [255, 254]

/-- h5py `CollectionStore._encode_key`: the bytes sentinel for the empty
string, `str(key)` otherwise. -/
def h5EncodeKey (key : String) : HKey :=
  if key = "" then h5EmptySentinel else HKey.str key

/-- h5py `CollectionStore.__setitem__` via `GroupDict.__setitem__`:
overwrite in place (the existing dataset is reused) or create a dataset;
the value is stored BSON-encoded. -/
def h5SetDoc (st : CollState HKey) (key : String) (d : PyVal) : CollState HKey :=
  { st with docs := AList.insert st.docs (h5EncodeKey key) (bsonNorm d) }

/-- h5py `CollectionStore.__getitem__` via `GroupDict.__getitem__`:
`KeyError` when absent, else `bson.decode` of the stored record. -/
def h5GetDoc (st : CollState HKey) (key : String) : Except StoreErr PyVal :=
  match AList.find? st.docs (h5EncodeKey key) with
  | Option.some b => Except.ok b
  | Option.none => Except.error StoreErr.notFound

/-- h5py `CollectionStore.__contains__` (via the MutableMapping default on
`GroupDict.__getitem__`). -/
def h5ContainsDoc (st : CollState HKey) (key : String) : Bool :=
  (AList.find? st.docs (h5EncodeKey key)).isSome

/-- h5py `CollectionStore.__delitem__` via `GroupDict.__delitem__`. -/
def h5DelDoc (st : CollState HKey) (key : String) : Except StoreErr (CollState HKey) :=
  match AList.find? st.docs (h5EncodeKey key) with
  | Option.some _ =>
    Except.ok { st with docs := AList.eraseKey st.docs (h5EncodeKey key) }
  | Option.none => Except.error StoreErr.notFound

/-- pytables `CollectionStore.EMPTY_UTF16 = " "`: the single-space string. -/
def ptEmptySentinel : String := " "

/-- pytables `CollectionStore._encode_key`: the single-space sentinel for
the empty string, `str(key)` otherwise. -/
def ptEncodeKey (key : String) : String :=
  if key = "" then ptEmptySentinel else key

/-- pytables `CollectionStore.__setitem__` via `GroupDict.__setitem__`:
remove any existing node, then write a fresh file node at the end. -/
def ptSetDoc (st : CollState String) (key : String) (d : PyVal) : CollState String :=
  { st with docs := AList.insertMove st.docs (ptEncodeKey key) (bsonNorm d) }

/-- pytables `CollectionStore.__getitem__` via `GroupDict.__getitem__`:
`NoSuchNodeError` is re-raised as `KeyError`. -/
def ptGetDoc (st : CollState String) (key : String) : Except StoreErr PyVal :=
  match AList.find? st.docs (ptEncodeKey key) with
  | Option.some b => Except.ok b
  | Option.none => Except.error StoreErr.notFound

/-- pytables `CollectionStore.__contains__` via `GroupDict.__contains__`:
`name in self._group`. -/
def ptContainsDoc (st : CollState String) (key : String) : Bool :=
  (AList.find? st.docs (ptEncodeKey key)).isSome

/-- pytables `CollectionStore.__delitem__` via `GroupDict.__delitem__`. -/
def ptDelDoc (st : CollState String) (key : String) : Except StoreErr (CollState String) :=
  match AList.find? st.docs (ptEncodeKey key) with
  | Option.some _ =>
    Except.ok { st with docs := AList.eraseKey st.docs (ptEncodeKey key) }
  | Option.none => Except.error StoreErr.notFound

/-- sqlite `TableDict._encode_key`: `str(key)` — the identity on strings;
no sentinel is substituted for the empty string in this backend. -/
def sqEncodeKey (key : String) : String := key

/-- sqlite document write: `TableDict.__setitem__` on the `documents` table. -/
def sqSetDoc (st : CollState String) (key : String) (d : PyVal) : CollState String :=
  { st with docs := sqTableSet st.docs (sqEncodeKey key) d }

/-- sqlite document read: `TableDict.__getitem__` on the `documents` table. -/
def sqGetDoc (st : CollState String) (key : String) : Except StoreErr PyVal :=
  sqTableGet st.docs (sqEncodeKey key)

/-- sqlite document existence: `TableDict.__contains__` on `documents`. -/
def sqContainsDoc (st : CollState String) (key : String) : Except StoreErr Bool :=
  sqTableContains st.docs (sqEncodeKey key)

/-- sqlite document delete: `TableDict.__delitem__` on `documents`. -/
def sqDelDoc (st : CollState String) (key : String) : Except StoreErr (CollState String) :=
  match sqTableDelete st.docs (sqEncodeKey key) with
  | Except.ok t => Except.ok { st with docs := t }
  | Except.error e => Except.error e

/-! ## Index lifecycle -/

/-- h5py `CollectionStore.create_index`: store the descriptor
BSON-encoded in the index mapping (`IndexDict.__setitem__`); when
`index_dict.get('expireAfterSeconds') is not None`, store it under the
same name in the `_ttl_indexes` GroupDict (also BSON-encoded). -/
def h5CreateIndex (st : CollState HKey) (name : String) (d : PyVal) : CollState HKey :=
  { st with indexes := AList.insert st.indexes name (bsonNorm d)
            ttl := if hasTTL d then AList.insert st.ttl name (bsonNorm d) else st.ttl }

/-- pytables `CollectionStore.create_index`: as in h5py, except both
mappings write a node by remove-then-append. -/
def ptCreateIndex (st : CollState String) (name : String) (d : PyVal) : CollState String :=
  { st with indexes := AList.insertMove st.indexes name (bsonNorm d)
            ttl := if hasTTL d then AList.insertMove st.ttl name (bsonNorm d) else st.ttl }

/-- sqlite `CollectionStore.create_index`: the descriptor goes
BSON-encoded into the `indexes` table (parameterized upsert); the
in-memory `_ttl_indexes` dict keeps the raw descriptor. -/
def sqCreateIndex (st : CollState String) (name : String) (d : PyVal) : CollState String :=
  { st with indexes := sqTableSet st.indexes (sqEncodeKey name) d
            ttl := if hasTTL d then AList.insert st.ttl name d else st.ttl }

/-- Modelled from the spec: `CollectionStore._remove_expired_documents` is
vendored mongomock code, not under src/; per spec §4.3 the expiry sweep
only "removes any documents that have already aged out", i.e. it acts on
the document mapping alone.  It is modelled as an arbitrary function on
the document mapping, passed as a parameter. -/
abbrev ExpirySweep (κ : Type) := AList κ PyVal → AList κ PyVal

/-- `CollectionStore.drop_index` (textually identical in the three
backends): run `self._remove_expired_documents()`, then
`del self.indexes[index_name]` (KeyError when the name is absent), then
`self._ttl_indexes.pop(index_name, None)` (never an error).  The sweep's
effect on the persistent document mapping survives even when the deletion
fails, so the result is the error outcome paired with the final state. -/
def collDropIndex {κ : Type} (sweep : ExpirySweep κ) (st : CollState κ)
    (name : String) : Except StoreErr Unit × CollState κ :=
  let st1 : CollState κ := { st with docs := sweep st.docs }
  match AList.find? st1.indexes name with
  | Option.some _ =>
    (Except.ok (), { st1 with indexes := AList.eraseKey st1.indexes name
                              ttl := AList.eraseKey st1.ttl name })
  | Option.none => (Except.error StoreErr.notFound, st1)

/-- h5py/pytables index readback: `GroupDict.__getitem__` composed with
`IndexDict._decode_doc`. -/
def grpIndexGet {κ : Type} (st : CollState κ) (name : String) : Except StoreErr PyVal :=
  match AList.find? st.indexes name with
  | Option.some b => indexDecode b
  | Option.none => Except.error StoreErr.notFound

/-- sqlite index readback: `TableDict.__getitem__` on the `indexes` table
composed with `IndexDict._decode_doc`. -/
def sqIndexGet (st : CollState String) (name : String) : Except StoreErr PyVal :=
  match sqTableGet st.indexes (sqEncodeKey name) with
  | Except.ok b => indexDecode b
  | Except.error e => Except.error e

/-! ## TTL-index synchronization (spec §3) -/

/-- The synchronization between an index mapping and a TTL mapping: every
TTL entry names a stored index whose descriptor carries a non-null
`expireAfterSeconds`, and every such stored index is TTL-registered. -/
def ttlSyncOf (indexes ttl : AList String PyVal) : Bool :=
  (ttl.all fun p =>
    match AList.find? indexes p.1 with
    | Option.some d => hasTTL d
    | Option.none => false)
  && (indexes.all fun p => !(hasTTL p.2) || (AList.find? ttl p.1).isSome)

/-- The TTL-index set is exactly the set of stored indexes whose
descriptor has a (non-null) `expireAfterSeconds`. -/
def ttlSyncB {κ : Type} (st : CollState κ) : Bool :=
  ttlSyncOf st.indexes st.ttl

/-! ## Database and Server Stores -/

/-- The state of a Database Store: the physical medium holding the
collections existing under this database (the files in the database
directory for sqlite, the child groups for h5py/pytables), the
`_collections` handle cache — a map from name to an opaque handle
identity — and the allocator for fresh handle identities.  The collection
state a handle reads and writes lives in `medium`. -/
structure DBState (κ : Type) where
  medium : AList String (CollState κ)
  cache : AList String Nat
  next : Nat

/-- `DatabaseStore.__getitem__` (identical shape in the three backends):
look the name up in the handle cache; on a miss, construct a Collection
Store over the physical artifact — creating an empty artifact when none
exists (sqlite `sqlite3.connect` + `CREATE TABLE IF NOT EXISTS`, h5py
`require_group`, pytables `_require_group`) — and cache the new handle. -/
def dbGetItem {κ : Type} (st : DBState κ) (name : String) : Nat × DBState κ :=
  match AList.find? st.cache name with
  | Option.some h => (h, st)
  | Option.none =>
    (st.next,
     { medium :=
         match AList.find? st.medium name with
         | Option.some _ => st.medium
         | Option.none => AList.insert st.medium name emptyColl
       cache := AList.insert st.cache name st.next
       next := st.next + 1 })

/-- The collection state observed through the handle `self[name]`. -/
def dbCollAt {κ : Type} (st : DBState κ) (name : String) : CollState κ :=
  (AList.find? (dbGetItem st name).2.medium name).getD emptyColl

/-- The right-hand side of the Database Store containment rule:
`self[name].is_created`. -/
def dbGetItemIsCreated {κ : Type} (isC : CollState κ → Bool) (st : DBState κ)
    (name : String) : Bool :=
  isC (dbCollAt st name)

/-- `DatabaseStore.__contains__` (identical in the three backends):
`if col_name not in self._collections: return False`, else
`self[col_name].is_created`.  A cache miss answers False without touching
the cache or the medium. -/
def dbContains {κ : Type} (isC : CollState κ → Bool) (st : DBState κ)
    (name : String) : Bool :=
  match AList.find? st.cache name with
  | Option.none => false
  | Option.some _ => isC ((AList.find? st.medium name).getD emptyColl)

/-- `DatabaseStore.is_created` (identical in the three backends):
`any(self[coll_name].is_created for coll_name in self._collections)`;
every iterated name is already cached, so the state is unchanged. -/
def dbIsCreated {κ : Type} (isC : CollState κ → Bool) (st : DBState κ) : Bool :=
  st.cache.any fun p => isC ((AList.find? st.medium p.1).getD emptyColl)

/-- sqlite `DatabaseStore.rename`: `coll = self._collections.pop(name)`
(KeyError on a cache miss), `coll.rename(new_name)` — a POSIX
`Path.rename` replacing any file already at the destination and failing
when the source file is missing — then `self._collections[new_name] =
coll`, the same handle under the new name. -/
def sqDbRename (st : DBState String) (old new : String) :
    Except StoreErr (DBState String) :=
  match AList.find? st.cache old with
  | Option.none => Except.error StoreErr.notFound
  | Option.some h =>
    match AList.find? st.medium old with
    | Option.none => Except.error StoreErr.backendFail
    | Option.some content =>
      Except.ok
        { medium := AList.insert (AList.eraseKey st.medium old) new content
          cache := AList.insert (AList.eraseKey st.cache old) new h
          next := st.next }

/-- h5py `DatabaseStore.rename`: delete any existing group at the
destination, `self._group.move(name, new_name)` (failing when the source
group is missing), then `self._collections[new_name] =
self._collections.pop(name)` (KeyError on a cache miss).
(pytables `DatabaseStore.rename` is the same with the destination
replacement expressed as `_f_move(..., overwrite=True)`.) -/
def h5DbRename (st : DBState HKey) (old new : String) :
    Except StoreErr (DBState HKey) :=
  match AList.find? st.medium old with
  | Option.none => Except.error StoreErr.backendFail
  | Option.some content =>
    match AList.find? st.cache old with
    | Option.none => Except.error StoreErr.notFound
    | Option.some h =>
      Except.ok
        { medium :=
            AList.insert (AList.eraseKey (AList.eraseKey st.medium new) old) new content
          cache := AList.insert (AList.eraseKey st.cache old) new h
          next := st.next }

/-- The state of a Server Store: the top-level physical location (per
database, the collection artifacts under it) plus the `_databases` cache
of constructed `DatabaseStore` handles. -/
structure SrvState (κ : Type) where
  disk : AList String (AList String (CollState κ))
  dbs : AList String (DBState κ)

/-- `ServerStore.__getitem__`: on a cache miss a fresh `DatabaseStore` is
constructed over the database location — with an empty collection cache —
creating the location when missing, and cached. -/
def srvGetItem {κ : Type} (st : SrvState κ) (name : String) :
    DBState κ × SrvState κ :=
  match AList.find? st.dbs name with
  | Option.some db => (db, st)
  | Option.none =>
    let db : DBState κ :=
      { medium := (AList.find? st.disk name).getD []
        cache := []
        next := 0 }
    (db,
     { disk :=
         match AList.find? st.disk name with
         | Option.some _ => st.disk
         | Option.none => AList.insert st.disk name []
       dbs := AList.insert st.dbs name db })

/-- `ServerStore.__contains__` (identical in the three backends):
`return self[db_name].is_created`, with no condition on the cache. -/
def srvContains {κ : Type} (isC : CollState κ → Bool) (st : SrvState κ)
    (name : String) : Bool × SrvState κ :=
  ((dbIsCreated isC (srvGetItem st name).1), (srvGetItem st name).2)

/-! ## Concrete values used by counterexamples and witnesses -/

/-- The identifier `a'b`: a single quote between two letters. -/
def aposKey : String := String.mk [Char.ofNat 97, quoteChar, Char.ofNat 98]

/-- A Database Store state over a directory already holding a populated
collection file `c` (for example, written by an earlier process), with a
fresh handle cache. -/
def dbCexState : DBState String :=
  { medium := [("c", { docs := [("1", PyVal.doc [])], indexes := [], ttl := []
                       forced := false })]
    cache := []
    next := 0 }

/-- An index descriptor with a TTL option. -/
def ttlDesc : PyVal :=
  PyVal.doc [("key", PyVal.list [PyVal.tuple [PyVal.str "x", PyVal.int 1]]),
             ("expireAfterSeconds", PyVal.int 5)]

/-- An index descriptor without a TTL option. -/
def plainDesc : PyVal :=
  PyVal.doc [("key", PyVal.list [PyVal.tuple [PyVal.str "y", PyVal.int 1]])]

/-! ## Association-list lemmas -/

namespace AList

variable {κ α : Type} [DecidableEq κ]

theorem find?_insert_self (m : AList κ α) (k : κ) (v : α) :
    find? (insert m k v) k = Option.some v := by
  induction m with
  | nil => simp [insert, find?]
  | cons p rest ih =>
    by_cases h : p.1 = k
    · simp [insert, h, find?]
    · simp [insert, h, find?, ih]

theorem find?_insert_ne (m : AList κ α) (k k2 : κ) (v : α) (hne : k ≠ k2) :
    find? (insert m k v) k2 = find? m k2 := by
  induction m with
  | nil => simp [insert, find?, hne]
  | cons p rest ih =>
    by_cases h : p.1 = k
    · have h2 : ¬ p.1 = k2 := by rw [h]; exact hne
      rw [insert, if_pos h, find?, find?, if_neg h2]
      simp [hne]
    · by_cases h3 : p.1 = k2
      · rw [insert, if_neg h, find?, if_pos h3, find?, if_pos h3]
      · rw [insert, if_neg h, find?, if_neg h3, find?, if_neg h3, ih]

theorem find?_eraseKey_self (m : AList κ α) (k : κ) :
    find? (eraseKey m k) k = Option.none := by
  induction m with
  | nil => simp [eraseKey, find?]
  | cons p rest ih =>
    by_cases h : p.1 = k
    · simp [eraseKey, h, ih]
    · simp [eraseKey, h, find?, ih]

theorem find?_eraseKey_ne (m : AList κ α) (k k2 : κ) (hne : k ≠ k2) :
    find? (eraseKey m k) k2 = find? m k2 := by
  induction m with
  | nil => simp [eraseKey]
  | cons p rest ih =>
    by_cases h : p.1 = k
    · have h2 : ¬ p.1 = k2 := by rw [h]; exact hne
      rw [eraseKey, if_pos h, ih, find?, if_neg h2]
    · by_cases h3 : p.1 = k2
      · rw [eraseKey, if_neg h, find?, if_pos h3, find?, if_pos h3]
      · rw [eraseKey, if_neg h, find?, if_neg h3, find?, if_neg h3, ih]

theorem find?_append (a b : AList κ α) (k : κ) :
    find? (a ++ b) k =
      match find? a k with
      | Option.some v => Option.some v
      | Option.none => find? b k := by
  induction a with
  | nil => simp [find?]
  | cons p rest ih =>
    by_cases h : p.1 = k
    · simp [find?, h]
    · simp [find?, h, ih]

theorem find?_insertMove_self (m : AList κ α) (k : κ) (v : α) :
    find? (insertMove m k v) k = Option.some v := by
  rw [insertMove, find?_append, find?_eraseKey_self]
  simp [find?]

theorem find?_insertMove_ne (m : AList κ α) (k k2 : κ) (v : α) (hne : k ≠ k2) :
    find? (insertMove m k v) k2 = find? m k2 := by
  rw [insertMove, find?_append, find?_eraseKey_ne m k k2 hne]
  cases h : find? m k2 with
  | some v2 => simp
  | none => simp [find?, hne]

theorem insert_ne_nil (m : AList κ α) (k : κ) (v : α) :
    insert m k v ≠ [] := by
  cases m with
  | nil => simp [insert]
  | cons p rest =>
    by_cases h : p.1 = k <;> simp [insert, h]

theorem insertMove_ne_nil (m : AList κ α) (k : κ) (v : α) :
    insertMove m k v ≠ [] := by
  simp [insertMove]

theorem mem_eraseKey {m : AList κ α} {k : κ} {x : κ × α}
    (hx : x ∈ eraseKey m k) : x ∈ m ∧ x.1 ≠ k := by
  induction m with
  | nil => simp [eraseKey] at hx
  | cons p rest ih =>
    by_cases h : p.1 = k
    · rw [eraseKey, if_pos h] at hx
      exact ⟨List.mem_cons_of_mem _ (ih hx).1, (ih hx).2⟩
    · rw [eraseKey, if_neg h] at hx
      cases hx with
      | head => exact ⟨List.mem_cons_self _ _, h⟩
      | tail _ htail => exact ⟨List.mem_cons_of_mem _ (ih htail).1, (ih htail).2⟩

theorem insert_of_find?_none {m : AList κ α} {k : κ} (h : find? m k = Option.none)
    (v : α) : insert m k v = m ++ [(k, v)] := by
  induction m with
  | nil => simp [insert]
  | cons p rest ih =>
    by_cases h2 : p.1 = k
    · rw [find?, if_pos h2] at h
      exact absurd h (by simp)
    · rw [find?, if_neg h2] at h
      simp [insert, h2, ih h]

theorem find?_some_mem {m : AList κ α} {k : κ} {v : α}
    (h : find? m k = Option.some v) : (k, v) ∈ m := by
  induction m with
  | nil => simp [find?] at h
  | cons p rest ih =>
    by_cases h2 : p.1 = k
    · rw [find?, if_pos h2] at h
      have hv := Option.some.inj h
      have hp : p = (k, v) := by
        obtain ⟨a, b⟩ := p
        simp only at h2 hv
        rw [h2, hv]
      rw [← hp]
      exact List.mem_cons_self p rest
    · rw [find?, if_neg h2] at h
      exact List.mem_cons_of_mem p (ih h)

theorem find?_none_key_ne {m : AList κ α} {k : κ} (h : find? m k = Option.none) :
    ∀ x ∈ m, x.1 ≠ k := by
  induction m with
  | nil => intro x hx; simp at hx
  | cons p rest ih =>
    by_cases h2 : p.1 = k
    · rw [find?, if_pos h2] at h
      exact absurd h (by simp)
    · rw [find?, if_neg h2] at h
      intro x hx
      cases hx with
      | head => exact h2
      | tail _ ht => exact ih h x ht

theorem eraseKey_of_find?_none {m : AList κ α} {k : κ} (h : find? m k = Option.none) :
    eraseKey m k = m := by
  induction m with
  | nil => rfl
  | cons p rest ih =>
    by_cases h2 : p.1 = k
    · rw [find?, if_pos h2] at h
      exact absurd h (by simp)
    · rw [find?, if_neg h2] at h
      rw [eraseKey, if_neg h2, ih h]

end AList

/-! ## Codec lemmas -/

theorem find?_bsonNormFields (fs : List (String × PyVal)) (k : String) :
    AList.find? (bsonNormFields fs) k = (AList.find? fs k).map bsonNorm := by
  induction fs with
  | nil => simp [bsonNormFields, AList.find?]
  | cons p rest ih =>
    obtain ⟨k2, v⟩ := p
    by_cases h : k2 = k
    · simp [bsonNormFields, AList.find?, h]
    · simp [bsonNormFields, AList.find?, h, ih]

theorem bsonNorm_eq_null_iff (v : PyVal) : bsonNorm v = PyVal.null ↔ v = PyVal.null := by
  cases v <;> simp [bsonNorm]

theorem hasTTL_bsonNorm (fs : List (String × PyVal)) :
    hasTTL (bsonNorm (PyVal.doc fs)) = hasTTL (PyVal.doc fs) := by
  rw [show bsonNorm (PyVal.doc fs) = PyVal.doc (bsonNormFields fs) from rfl]
  unfold hasTTL
  rw [show pyDocGet (PyVal.doc (bsonNormFields fs)) "expireAfterSeconds"
        = AList.find? (bsonNormFields fs) "expireAfterSeconds" from rfl]
  rw [find?_bsonNormFields]
  cases h : AList.find? fs "expireAfterSeconds" with
  | none => simp [pyDocGet, h]
  | some v =>
    simp only [pyDocGet, h, Option.map_some]
    cases v <;> simp [bsonNorm]

theorem hasTTL_bsonNorm_val (d : PyVal) : hasTTL (bsonNorm d) = hasTTL d := by
  cases d with
  | doc fs => exact hasTTL_bsonNorm fs
  | int n => rfl
  | str s => rfl
  | bool b => rfl
  | null => rfl
  | list xs => rfl
  | tuple xs => rfl

/-! ## SQL interpolation lemmas -/

theorem parseSqlLit_no_quote (cs : List Char) (h : quoteChar ∉ cs) :
    parseSqlLit (cs ++ [quoteChar]) = Option.some (cs, []) := by
  induction cs with
  | nil => simp [parseSqlLit]
  | cons c rest ih =>
    have hc : ¬ c = quoteChar := fun hc => h (hc ▸ List.mem_cons_self c rest)
    have hrest : quoteChar ∉ rest := fun hm => h (List.mem_cons_of_mem c hm)
    have hih := ih hrest
    cases rest with
    | nil => simp [parseSqlLit, hc]
    | cons r rest2 =>
      simp only [List.cons_append] at hih ⊢
      rw [parseSqlLit, if_neg hc, hih]

/-- A key free of single quotes survives the interpolation round trip. -/
theorem sqPointLookupLiteral_no_quote (key : String) (h : quoteChar ∉ key.data) :
    sqPointLookupLiteral key = Except.ok key := by
  show (match (quoteStr key).data with
    | [] => Except.error StoreErr.operational
    | c :: rest =>
      if c = quoteChar then
        match parseSqlLit rest with
        | Option.some (lit, List.nil) => Except.ok (String.mk lit)
        | _ => Except.error StoreErr.operational
      else Except.error StoreErr.operational) = Except.ok key
  rw [show (quoteStr key).data = quoteChar :: (key.data ++ [quoteChar]) from rfl]
  simp only [if_pos rfl, parseSqlLit_no_quote key.data h]
  cases key
  rfl

/-! ## TTL synchronization lemmas -/

theorem ttl_find?_none_of_sync (I T : AList String PyVal) (n : String)
    (h1 : AList.find? I n = Option.none) (h2 : ttlSyncOf I T = true) :
    AList.find? T n = Option.none := by
  cases hft : AList.find? T n with
  | none => rfl
  | some v =>
    rw [ttlSyncOf, Bool.and_eq_true] at h2
    have hc1 := h2.1
    rw [List.all_eq_true] at hc1
    have hv : (match AList.find? I n with
        | Option.some d => hasTTL d
        | Option.none => false) = true := hc1 (n, v) (AList.find?_some_mem hft)
    rw [h1] at hv
    exact absurd hv (by simp)

theorem ttlSyncOf_append (I T : AList String PyVal) (n : String) (ds w : PyVal)
    (h1 : AList.find? I n = Option.none)
    (h2 : ttlSyncOf I T = true) :
    ttlSyncOf (I ++ [(n, ds)]) (if hasTTL ds then T ++ [(n, w)] else T) = true := by
  have httl := ttl_find?_none_of_sync I T n h1 h2
  rw [ttlSyncOf, Bool.and_eq_true] at h2
  obtain ⟨hc1, hc2⟩ := h2
  rw [List.all_eq_true] at hc1
  rw [List.all_eq_true] at hc2
  rw [ttlSyncOf, Bool.and_eq_true]
  refine ⟨?_, ?_⟩
  · rw [List.all_eq_true]
    intro p hp
    have hsplit : p ∈ T ∨ (hasTTL ds = true ∧ p = (n, w)) := by
      by_cases hd : hasTTL ds = true
      · rw [if_pos hd] at hp
        rcases List.mem_append.mp hp with hl | hr
        · exact Or.inl hl
        · exact Or.inr ⟨hd, List.mem_singleton.mp hr⟩
      · rw [if_neg hd] at hp
        exact Or.inl hp
    rcases hsplit with hpT | ⟨hd, hpw⟩
    · have hv : (match AList.find? I p.1 with
          | Option.some d => hasTTL d
          | Option.none => false) = true := hc1 p hpT
      cases hfi : AList.find? I p.1 with
      | none => rw [hfi] at hv; exact absurd hv (by simp)
      | some d =>
        rw [hfi] at hv
        simp only [AList.find?_append, hfi]
        exact hv
    · subst hpw
      simp [AList.find?_append, h1, AList.find?, hd]
  · rw [List.all_eq_true]
    intro p hp
    rcases List.mem_append.mp hp with hl | hr
    · have hv := hc2 p hl
      by_cases hpt : hasTTL p.2 = true
      · rw [hpt] at hv
        simp only [Bool.not_true, Bool.false_or] at hv
        cases hft : AList.find? T p.1 with
        | none => rw [hft] at hv; exact absurd hv (by simp)
        | some v =>
          by_cases hd : hasTTL ds = true
          · simp [hpt, if_pos hd, AList.find?_append, hft]
          · simp [hpt, if_neg hd, hft]
      · rw [Bool.not_eq_true] at hpt
        simp [hpt]
    · have hpe := List.mem_singleton.mp hr
      subst hpe
      by_cases hd : hasTTL ds = true
      · simp only [if_pos hd]
        simp [AList.find?_append, httl, AList.find?]
      · rw [Bool.not_eq_true] at hd
        simp [hd]

theorem ttlSyncOf_erase (I T : AList String PyVal) (n : String)
    (h2 : ttlSyncOf I T = true) :
    ttlSyncOf (AList.eraseKey I n) (AList.eraseKey T n) = true := by
  rw [ttlSyncOf, Bool.and_eq_true] at h2
  obtain ⟨hc1, hc2⟩ := h2
  rw [List.all_eq_true] at hc1
  rw [List.all_eq_true] at hc2
  rw [ttlSyncOf, Bool.and_eq_true]
  refine ⟨?_, ?_⟩
  · rw [List.all_eq_true]
    intro p hp
    obtain ⟨hpT, hpne⟩ := AList.mem_eraseKey hp
    have hv : (match AList.find? I p.1 with
        | Option.some d => hasTTL d
        | Option.none => false) = true := hc1 p hpT
    rw [AList.find?_eraseKey_ne I n p.1 (fun hh => hpne hh.symm)]
    exact hv
  · rw [List.all_eq_true]
    intro p hp
    obtain ⟨hpI, hpne⟩ := AList.mem_eraseKey hp
    have hv := hc2 p hpI
    rw [AList.find?_eraseKey_ne T n p.1 (fun hh => hpne hh.symm)]
    exact hv

/-! ## Index decode lemma -/

theorem mapTuple_bsonNormList (ps : List PyVal)
    (h : ∀ p ∈ ps, ∃ f k, p = PyVal.tuple [PyVal.str f, PyVal.int k]) :
    mapTuple (bsonNormList ps) = Except.ok ps := by
  induction ps with
  | nil => rfl
  | cons p rest ih =>
    obtain ⟨f, k, hp⟩ := h p (List.mem_cons_self p rest)
    have hih := ih fun q hq => h q (List.mem_cons_of_mem p hq)
    subst hp
    rw [bsonNormList]
    rw [show bsonNorm (PyVal.tuple [PyVal.str f, PyVal.int k])
          = PyVal.list [PyVal.str f, PyVal.int k] from rfl]
    rw [mapTuple]
    rw [show pyTupleOfElem (PyVal.list [PyVal.str f, PyVal.int k])
          = Except.ok (PyVal.tuple [PyVal.str f, PyVal.int k]) from rfl]
    rw [hih]

theorem isEmpty_false_of_ne_nil {α : Type} {l : List α} (h : l ≠ []) :
    l.isEmpty = false := by
  cases l with
  | nil => exact absurd rfl h
  | cons a as => rfl

/-! ## Claim theorems -/

/-- Claim C3: for every Collection Store in every backend, `is_created` is
true exactly when the document mapping is non-empty, or the index mapping
is non-empty, or the force-created flag is set; the query has no side
effect on the state; a fresh store reports false, and `create()`, any
document `set()`, and `create_index()` each make it true. -/
theorem claim3_is_created_invariant :
    (∀ (st : CollState HKey),
      (grpIsCreated st = true ↔ st.docs ≠ [] ∨ st.indexes ≠ [] ∨ st.forced = true)
      ∧ isCreatedQuery grpIsCreated st = (grpIsCreated st, st))
    ∧ (∀ (st : CollState String),
      (sqIsCreated st = true ↔ st.docs ≠ [] ∨ st.indexes ≠ [] ∨ st.forced = true)
      ∧ isCreatedQuery sqIsCreated st = (sqIsCreated st, st))
    ∧ grpIsCreated (emptyColl : CollState HKey) = false
    ∧ grpIsCreated (emptyColl : CollState String) = false
    ∧ sqIsCreated emptyColl = false
    ∧ (∀ (st : CollState HKey) (k n : String) (d : PyVal),
        grpIsCreated (collCreate st) = true
        ∧ grpIsCreated (h5SetDoc st k d) = true
        ∧ grpIsCreated (h5CreateIndex st n d) = true)
    ∧ (∀ (st : CollState String) (k n : String) (d : PyVal),
        grpIsCreated (ptSetDoc st k d) = true
        ∧ grpIsCreated (ptCreateIndex st n d) = true
        ∧ sqIsCreated (collCreate st) = true
        ∧ sqIsCreated (sqSetDoc st k d) = true
        ∧ sqIsCreated (sqCreateIndex st n d) = true) := by
  refine ⟨?_, ?_, rfl, rfl, rfl, ?_, ?_⟩
  · intro st
    refine ⟨?_, rfl⟩
    obtain ⟨ds, ix, tt, fc⟩ := st
    simp only [grpIsCreated]
    cases ds <;> cases ix <;> cases fc <;> simp
  · intro st
    refine ⟨?_, rfl⟩
    obtain ⟨ds, ix, tt, fc⟩ := st
    simp only [sqIsCreated, sqIsEmpty]
    cases ds <;> cases ix <;> cases fc <;> simp
  · intro st k n d
    refine ⟨?_, ?_, ?_⟩
    · simp [collCreate, grpIsCreated]
    · simp [h5SetDoc, grpIsCreated,
        isEmpty_false_of_ne_nil (AList.insert_ne_nil st.docs (h5EncodeKey k) (bsonNorm d))]
    · simp [h5CreateIndex, grpIsCreated,
        isEmpty_false_of_ne_nil (AList.insert_ne_nil st.indexes n (bsonNorm d))]
  · intro st k n d
    refine ⟨?_, ?_, ?_, ?_, ?_⟩
    · simp [ptSetDoc, grpIsCreated,
        isEmpty_false_of_ne_nil (AList.insertMove_ne_nil st.docs (ptEncodeKey k) (bsonNorm d))]
    · simp [ptCreateIndex, grpIsCreated,
        isEmpty_false_of_ne_nil (AList.insertMove_ne_nil st.indexes n (bsonNorm d))]
    · simp [collCreate, sqIsCreated, sqIsEmpty]
    · simp [sqSetDoc, sqTableSet, sqIsCreated, sqIsEmpty, sqEncodeKey,
        isEmpty_false_of_ne_nil (AList.insert_ne_nil st.docs k (bsonNorm d))]
    · simp [sqCreateIndex, sqTableSet, sqIsCreated, sqIsEmpty, sqEncodeKey,
        isEmpty_false_of_ne_nil (AList.insert_ne_nil st.indexes n (bsonNorm d))]

/-- Claim C6: in every backend, `drop()` leaves the document mapping, the
index mapping, the TTL mapping all empty and the force-created flag false
(so `is_created` is false afterwards), and the store stays writable: a
subsequent `set()` stores its document (readable back) and a subsequent
`create_index()` stores its descriptor. -/
theorem claim6_drop_resets_and_stays_writable :
    (∀ (st : CollState HKey),
      grpDrop st = emptyColl ∧ grpIsCreated (grpDrop st) = false)
    ∧ (∀ (st : CollState String),
      grpDrop st = emptyColl ∧ grpIsCreated (grpDrop st) = false
      ∧ sqDrop st = emptyColl ∧ sqIsCreated (sqDrop st) = false)
    ∧ (∀ (st : CollState HKey) (k n : String) (d : PyVal),
      h5GetDoc (h5SetDoc (grpDrop st) k d) k = Except.ok (bsonNorm d)
      ∧ (h5SetDoc (grpDrop st) k d).docs = [(h5EncodeKey k, bsonNorm d)]
      ∧ (h5CreateIndex (grpDrop st) n d).indexes = [(n, bsonNorm d)])
    ∧ (∀ (st : CollState String) (k n : String) (d : PyVal),
      ptGetDoc (ptSetDoc (grpDrop st) k d) k = Except.ok (bsonNorm d)
      ∧ (ptSetDoc (grpDrop st) k d).docs = [(ptEncodeKey k, bsonNorm d)]
      ∧ (ptCreateIndex (grpDrop st) n d).indexes = [(n, bsonNorm d)]
      ∧ (sqSetDoc (sqDrop st) k d).docs = [(sqEncodeKey k, bsonNorm d)]
      ∧ (sqCreateIndex (sqDrop st) n d).indexes = [(n, bsonNorm d)]) := by
  refine ⟨fun st => ⟨rfl, rfl⟩, fun st => ⟨rfl, rfl, rfl, rfl⟩, ?_, ?_⟩
  · intro st k n d
    refine ⟨?_, rfl, rfl⟩
    simp [h5GetDoc, h5SetDoc, grpDrop, AList.insert, AList.find?]
  · intro st k n d
    refine ⟨?_, ?_, ?_, rfl, rfl⟩
    · simp [ptGetDoc, ptSetDoc, grpDrop, AList.insertMove, AList.eraseKey, AList.find?]
    · simp [ptSetDoc, grpDrop, AList.insertMove, AList.eraseKey]
    · simp [ptCreateIndex, grpDrop, AList.insertMove, AList.eraseKey]

/-- Claim C7: `drop_index(name)` first runs the expiry sweep, then fails
NotFound exactly when `name` is absent from the index mapping; absence
from the TTL mapping alone never raises; and when present, `name` is
removed from both the index mapping and the TTL mapping. -/
theorem claim7_drop_index_spec (κ : Type) [DecidableEq κ] (sweep : ExpirySweep κ)
    (st : CollState κ) (name : String) :
    ((collDropIndex sweep st name).1 = Except.error StoreErr.notFound
      ↔ AList.find? st.indexes name = Option.none)
    ∧ ((collDropIndex sweep st name).1 = Except.ok ()
      ↔ (AList.find? st.indexes name).isSome = true)
    ∧ (collDropIndex sweep st name).2.docs = sweep st.docs
    ∧ AList.find? (collDropIndex sweep st name).2.indexes name = Option.none
    ∧ (collDropIndex sweep st name).2.ttl
      = (if (AList.find? st.indexes name).isSome then AList.eraseKey st.ttl name
         else st.ttl)
    ∧ (collDropIndex sweep st name).2.forced = st.forced := by
  cases hfi : AList.find? st.indexes name with
  | some d => simp [collDropIndex, hfi, AList.find?_eraseKey_self]
  | none => simp [collDropIndex, hfi]

/-- Claim C10: in the pytables backend the empty-string key and the
single-space key are encoded to the same stored key — the sentinel is the
string `" "` — so the two caller keys alias one entry: writing under `""`
is read back under `" "`, and `contains(" ")` turns true after
`set("", D)`. -/
theorem claim10_pt_empty_key_aliasing (st : CollState String) (D1 D2 : PyVal)
    (h2 : bsonNorm D2 = D2) :
    ptEncodeKey "" = ptEncodeKey " "
    ∧ ptEncodeKey "" = " "
    ∧ ptGetDoc (ptSetDoc (ptSetDoc st " " D1) "" D2) " " = Except.ok D2
    ∧ ptContainsDoc (ptSetDoc st "" D2) " " = true := by
  have e1 : ptEncodeKey " " = " " := rfl
  have e0 : ptEncodeKey "" = " " := rfl
  refine ⟨rfl, rfl, ?_, ?_⟩
  · simp only [ptGetDoc, ptSetDoc, e0, e1, AList.find?_insertMove_self, h2]
  · simp only [ptContainsDoc, ptSetDoc, e0, e1, AList.find?_insertMove_self,
      Option.isSome_some]

/-- Witness for C10 at concrete documents. -/
theorem claim10_pt_empty_key_aliasing_witness :
    ptEncodeKey "" = ptEncodeKey " "
    ∧ ptEncodeKey "" = " "
    ∧ ptGetDoc (ptSetDoc (ptSetDoc emptyColl " " (PyVal.doc [])) ""
        (PyVal.doc [("a", PyVal.int 1)])) " "
      = Except.ok (PyVal.doc [("a", PyVal.int 1)])
    ∧ ptContainsDoc (ptSetDoc emptyColl "" (PyVal.doc [("a", PyVal.int 1)])) " "
      = true :=
  claim10_pt_empty_key_aliasing emptyColl (PyVal.doc [])
    (PyVal.doc [("a", PyVal.int 1)]) rfl

/-- Claim C5: in every backend, storing an index descriptor whose `key`
field is a sequence of (field, direction) pairs via `create_index` and
reading it back yields a `key` equal to the ordered sequence of arity-two
tuples — never lists — through decode-time normalization. -/
theorem claim5_index_key_roundtrip (fs : List (String × PyVal)) (ps : List PyVal)
    (name : String)
    (hkey : AList.find? fs "key" = Option.some (PyVal.list ps))
    (hps : ∀ p ∈ ps, ∃ f k, p = PyVal.tuple [PyVal.str f, PyVal.int k])
    (hq : quoteChar ∉ name.data) :
    (∃ gs, grpIndexGet (h5CreateIndex emptyColl name (PyVal.doc fs)) name
        = Except.ok (PyVal.doc gs)
      ∧ AList.find? gs "key" = Option.some (PyVal.list ps))
    ∧ (∃ gs, grpIndexGet (ptCreateIndex emptyColl name (PyVal.doc fs)) name
        = Except.ok (PyVal.doc gs)
      ∧ AList.find? gs "key" = Option.some (PyVal.list ps))
    ∧ (∃ gs, sqIndexGet (sqCreateIndex emptyColl name (PyVal.doc fs)) name
        = Except.ok (PyVal.doc gs)
      ∧ AList.find? gs "key" = Option.some (PyVal.list ps)) := by
  have hnorm : AList.find? (bsonNormFields fs) "key"
      = Option.some (PyVal.list (bsonNormList ps)) := by
    rw [find?_bsonNormFields, hkey]
    rfl
  have hmap := mapTuple_bsonNormList ps hps
  have hdec : indexDecode (PyVal.doc (bsonNormFields fs))
      = Except.ok (PyVal.doc (AList.insert (bsonNormFields fs) "key" (PyVal.list ps))) := by
    simp only [indexDecode, hnorm, hmap]
  have hfind : AList.find? (AList.insert (bsonNormFields fs) "key" (PyVal.list ps)) "key"
      = Option.some (PyVal.list ps) := AList.find?_insert_self _ _ _
  have hlit := sqPointLookupLiteral_no_quote name hq
  refine ⟨⟨_, ?_, hfind⟩, ⟨_, ?_, hfind⟩, ⟨_, ?_, hfind⟩⟩
  · simp [grpIndexGet, h5CreateIndex, emptyColl, AList.insert, AList.find?, bsonNorm,
      hdec]
  · simp [grpIndexGet, ptCreateIndex, emptyColl, AList.insertMove, AList.eraseKey,
      AList.find?, bsonNorm, hdec]
  · simp [sqIndexGet, sqCreateIndex, sqTableSet, sqTableGet, sqEncodeKey, emptyColl,
      AList.insert, AList.find?, bsonNorm, hlit, hdec]

/-- Witness for C5 at the spec's own example `{key: [("x", 1)]}` under the
name `by_x`. -/
theorem claim5_index_key_roundtrip_witness :
    (∃ gs, grpIndexGet (h5CreateIndex emptyColl "by_x"
        (PyVal.doc [("key", PyVal.list [PyVal.tuple [PyVal.str "x", PyVal.int 1]])]))
        "by_x" = Except.ok (PyVal.doc gs)
      ∧ AList.find? gs "key"
        = Option.some (PyVal.list [PyVal.tuple [PyVal.str "x", PyVal.int 1]]))
    ∧ (∃ gs, grpIndexGet (ptCreateIndex emptyColl "by_x"
        (PyVal.doc [("key", PyVal.list [PyVal.tuple [PyVal.str "x", PyVal.int 1]])]))
        "by_x" = Except.ok (PyVal.doc gs)
      ∧ AList.find? gs "key"
        = Option.some (PyVal.list [PyVal.tuple [PyVal.str "x", PyVal.int 1]]))
    ∧ (∃ gs, sqIndexGet (sqCreateIndex emptyColl "by_x"
        (PyVal.doc [("key", PyVal.list [PyVal.tuple [PyVal.str "x", PyVal.int 1]])]))
        "by_x" = Except.ok (PyVal.doc gs)
      ∧ AList.find? gs "key"
        = Option.some (PyVal.list [PyVal.tuple [PyVal.str "x", PyVal.int 1]])) :=
  claim5_index_key_roundtrip
    [("key", PyVal.list [PyVal.tuple [PyVal.str "x", PyVal.int 1]])]
    [PyVal.tuple [PyVal.str "x", PyVal.int 1]] "by_x" rfl
    (by
      intro p hp
      rw [List.mem_singleton] at hp
      subst hp
      exact ⟨"x", 1, rfl⟩)
    (by decide)

/-- Claim C2 (amended): Database Store containment is cache-gated —
`contains(name)` equals `(name cached) && self[name].is_created` — while
one level up the Server Store containment is exactly
`self[name].is_created`, with no cache condition. -/
theorem claim2_contains_formula (κ : Type) [DecidableEq κ]
    (isC : CollState κ → Bool) (st : DBState κ) (sst : SrvState κ) (name : String) :
    dbContains isC st name
      = ((AList.find? st.cache name).isSome && dbGetItemIsCreated isC st name)
    ∧ (srvContains isC sst name).1 = dbIsCreated isC (srvGetItem sst name).1 := by
  refine ⟨?_, rfl⟩
  cases h : AList.find? st.cache name with
  | none => simp [dbContains, h]
  | some hdl => simp [dbContains, dbGetItemIsCreated, dbCollAt, dbGetItem, h]

/-- Counterexample to C2 as stated: over a directory that already holds a
populated collection file `c`, a fresh Database Store answers
`contains("c") = false` even though `self["c"].is_created` is true — the
extra cache condition is observable. -/
theorem claim2_counterexample :
    dbContains sqIsCreated dbCexState "c" = false
    ∧ dbGetItemIsCreated sqIsCreated dbCexState "c" = true :=
  ⟨rfl, rfl⟩

/-- Claim C1 (amended): for identifiers free of single quotes and
BSON-canonical documents, set-then-get returns the document and contains
answers true, in all three backends; the relational upsert is
parameterized (key and blob travel as parameters, the text is
key-independent), while the point lookups carry no parameters. -/
theorem claim1_set_get_roundtrip (key table : String) (D : PyVal) (t : SqTable)
    (sth : CollState HKey) (stp : CollState String)
    (hq : quoteChar ∉ key.data) (hD : bsonNorm D = D) :
    sqTableGet (sqTableSet t key D) key = Except.ok D
    ∧ sqTableContains (sqTableSet t key D) key = Except.ok true
    ∧ h5GetDoc (h5SetDoc sth key D) key = Except.ok D
    ∧ h5ContainsDoc (h5SetDoc sth key D) key = true
    ∧ ptGetDoc (ptSetDoc stp key D) key = Except.ok D
    ∧ ptContainsDoc (ptSetDoc stp key D) key = true
    ∧ (sqUpsertStmt table key (bsonNorm D)).text = sqUpsertText table
    ∧ (sqUpsertStmt table key (bsonNorm D)).params
      = [SqlParam.s key, SqlParam.blob (bsonNorm D), SqlParam.blob (bsonNorm D)]
    ∧ (sqSelectDocStmt table key).params = [] := by
  have hlit := sqPointLookupLiteral_no_quote key hq
  refine ⟨?_, ?_, ?_, ?_, ?_, ?_, rfl, rfl, rfl⟩
  · simp only [sqTableGet, sqTableSet, hlit, AList.find?_insert_self, hD]
  · simp only [sqTableContains, sqTableSet, hlit, AList.find?_insert_self,
      Option.isSome_some]
  · simp only [h5GetDoc, h5SetDoc, AList.find?_insert_self, hD]
  · simp only [h5ContainsDoc, h5SetDoc, AList.find?_insert_self, Option.isSome_some]
  · simp only [ptGetDoc, ptSetDoc, AList.find?_insertMove_self, hD]
  · simp only [ptContainsDoc, ptSetDoc, AList.find?_insertMove_self, Option.isSome_some]

/-- Witness for C1 at the identifier `k1` and document `{_id: 1}`. -/
theorem claim1_set_get_roundtrip_witness :
    sqTableGet (sqTableSet [] "k1" (PyVal.doc [("_id", PyVal.int 1)])) "k1"
      = Except.ok (PyVal.doc [("_id", PyVal.int 1)])
    ∧ sqTableContains (sqTableSet [] "k1" (PyVal.doc [("_id", PyVal.int 1)])) "k1"
      = Except.ok true
    ∧ h5GetDoc (h5SetDoc emptyColl "k1" (PyVal.doc [("_id", PyVal.int 1)])) "k1"
      = Except.ok (PyVal.doc [("_id", PyVal.int 1)])
    ∧ h5ContainsDoc (h5SetDoc emptyColl "k1" (PyVal.doc [("_id", PyVal.int 1)])) "k1"
      = true
    ∧ ptGetDoc (ptSetDoc emptyColl "k1" (PyVal.doc [("_id", PyVal.int 1)])) "k1"
      = Except.ok (PyVal.doc [("_id", PyVal.int 1)])
    ∧ ptContainsDoc (ptSetDoc emptyColl "k1" (PyVal.doc [("_id", PyVal.int 1)])) "k1"
      = true
    ∧ (sqUpsertStmt "documents" "k1" (bsonNorm (PyVal.doc [("_id", PyVal.int 1)]))).text
      = sqUpsertText "documents"
    ∧ (sqUpsertStmt "documents" "k1" (bsonNorm (PyVal.doc [("_id", PyVal.int 1)]))).params
      = [SqlParam.s "k1", SqlParam.blob (bsonNorm (PyVal.doc [("_id", PyVal.int 1)])),
         SqlParam.blob (bsonNorm (PyVal.doc [("_id", PyVal.int 1)]))]
    ∧ (sqSelectDocStmt "documents" "k1").params = [] :=
  claim1_set_get_roundtrip "k1" "documents" (PyVal.doc [("_id", PyVal.int 1)]) []
    emptyColl emptyColl (by decide) rfl

/-- Counterexample to C1 as stated: the identifier `a'b` is stored intact
by the parameterized upsert, but every interpolated point lookup on it is
a malformed statement (OperationalError), so get does not return the
stored document; and the lookup statement carries no parameters while its
text varies with the key — it is not parameterized. -/
theorem claim1_counterexample :
    sqTableGet (sqTableSet [] aposKey (PyVal.doc [])) aposKey
      = Except.error StoreErr.operational
    ∧ sqTableGet (sqTableSet [] aposKey (PyVal.doc [])) aposKey
      ≠ Except.ok (PyVal.doc [])
    ∧ sqTableContains (sqTableSet [] aposKey (PyVal.doc [])) aposKey
      = Except.error StoreErr.operational
    ∧ sqTableDelete (sqTableSet [] aposKey (PyVal.doc [])) aposKey
      = Except.error StoreErr.operational
    ∧ (sqSelectDocStmt "documents" aposKey).params = []
    ∧ (sqSelectDocStmt "documents" "a").text ≠ (sqSelectDocStmt "documents" "b").text := by
  refine ⟨rfl, ?_, rfl, rfl, rfl, ?_⟩
  · intro hcontra
    rw [show sqTableGet (sqTableSet [] aposKey (PyVal.doc [])) aposKey
          = Except.error StoreErr.operational from rfl] at hcontra
    exact Except.noConfusion hcontra
  · decide

/-- Claim C4 (amended): in each backend, `set("", D)` then `get("")`
returns D, and `contains("")`/`get("")`/`delete("")` are mutually
consistent within that backend; but the relational backend substitutes no
sentinel at all (`str(key)` is the identity), and in the node-file
backend the sentinel `" "` aliases the caller key `" "`, so the three
backends do not behave identically once the key `" "` is in play. -/
theorem claim4_empty_key_per_backend (D : PyVal) (sth : CollState HKey)
    (stp sts : CollState String) (hD : bsonNorm D = D) :
    h5GetDoc (h5SetDoc sth "" D) "" = Except.ok D
    ∧ h5ContainsDoc (h5SetDoc sth "" D) "" = true
    ∧ (h5DelDoc (h5SetDoc sth "" D) "").map (fun st2 => h5ContainsDoc st2 "")
      = Except.ok false
    ∧ (h5DelDoc (h5SetDoc sth "" D) "").map (fun st2 => h5GetDoc st2 "")
      = Except.ok (Except.error StoreErr.notFound)
    ∧ ptGetDoc (ptSetDoc stp "" D) "" = Except.ok D
    ∧ ptContainsDoc (ptSetDoc stp "" D) "" = true
    ∧ (ptDelDoc (ptSetDoc stp "" D) "").map (fun st2 => ptContainsDoc st2 "")
      = Except.ok false
    ∧ (ptDelDoc (ptSetDoc stp "" D) "").map (fun st2 => ptGetDoc st2 "")
      = Except.ok (Except.error StoreErr.notFound)
    ∧ sqGetDoc (sqSetDoc sts "" D) "" = Except.ok D
    ∧ sqContainsDoc (sqSetDoc sts "" D) "" = Except.ok true
    ∧ (sqDelDoc (sqSetDoc sts "" D) "").map (fun st2 => sqContainsDoc st2 "")
      = Except.ok (Except.ok false)
    ∧ (sqDelDoc (sqSetDoc sts "" D) "").map (fun st2 => sqGetDoc st2 "")
      = Except.ok (Except.error StoreErr.notFound)
    ∧ sqEncodeKey "" = ""
    ∧ h5EncodeKey "" = h5EmptySentinel
    ∧ ptEncodeKey "" = ptEmptySentinel := by
  have hq0 : quoteChar ∉ ("" : String).data := by decide
  have hlit0 := sqPointLookupLiteral_no_quote "" hq0
  refine ⟨?_, ?_, ?_, ?_, ?_, ?_, ?_, ?_, ?_, ?_, ?_, ?_, rfl, rfl, rfl⟩
  · simp only [h5GetDoc, h5SetDoc, AList.find?_insert_self, hD]
  · simp only [h5ContainsDoc, h5SetDoc, AList.find?_insert_self, Option.isSome_some]
  · simp [h5DelDoc, h5SetDoc, AList.find?_insert_self, Except.map, h5ContainsDoc,
      AList.find?_eraseKey_self]
  · simp [h5DelDoc, h5SetDoc, AList.find?_insert_self, Except.map, h5GetDoc,
      AList.find?_eraseKey_self]
  · simp only [ptGetDoc, ptSetDoc, AList.find?_insertMove_self, hD]
  · simp only [ptContainsDoc, ptSetDoc, AList.find?_insertMove_self, Option.isSome_some]
  · simp [ptDelDoc, ptSetDoc, AList.find?_insertMove_self, Except.map, ptContainsDoc,
      AList.find?_eraseKey_self]
  · simp [ptDelDoc, ptSetDoc, AList.find?_insertMove_self, Except.map, ptGetDoc,
      AList.find?_eraseKey_self]
  · simp only [sqGetDoc, sqSetDoc, sqEncodeKey, sqTableGet, sqTableSet, hlit0,
      AList.find?_insert_self, hD]
  · simp only [sqContainsDoc, sqSetDoc, sqEncodeKey, sqTableContains, sqTableSet, hlit0,
      AList.find?_insert_self, Option.isSome_some]
  · simp [sqDelDoc, sqSetDoc, sqEncodeKey, sqTableDelete, sqTableSet, sqTableContains,
      hlit0, AList.find?_insert_self, AList.find?_eraseKey_self, Except.map,
      sqContainsDoc]
  · simp [sqDelDoc, sqSetDoc, sqEncodeKey, sqTableDelete, sqTableSet, sqTableGet,
      hlit0, AList.find?_insert_self, AList.find?_eraseKey_self, Except.map, sqGetDoc]

/-- Witness for C4 (amended) at the document `{_id: 1}`. -/
theorem claim4_empty_key_per_backend_witness :
    h5GetDoc (h5SetDoc emptyColl "" (PyVal.doc [("_id", PyVal.int 1)])) ""
      = Except.ok (PyVal.doc [("_id", PyVal.int 1)])
    ∧ h5ContainsDoc (h5SetDoc emptyColl "" (PyVal.doc [("_id", PyVal.int 1)])) "" = true
    ∧ (h5DelDoc (h5SetDoc emptyColl "" (PyVal.doc [("_id", PyVal.int 1)])) "").map
        (fun st2 => h5ContainsDoc st2 "") = Except.ok false
    ∧ (h5DelDoc (h5SetDoc emptyColl "" (PyVal.doc [("_id", PyVal.int 1)])) "").map
        (fun st2 => h5GetDoc st2 "") = Except.ok (Except.error StoreErr.notFound)
    ∧ ptGetDoc (ptSetDoc emptyColl "" (PyVal.doc [("_id", PyVal.int 1)])) ""
      = Except.ok (PyVal.doc [("_id", PyVal.int 1)])
    ∧ ptContainsDoc (ptSetDoc emptyColl "" (PyVal.doc [("_id", PyVal.int 1)])) "" = true
    ∧ (ptDelDoc (ptSetDoc emptyColl "" (PyVal.doc [("_id", PyVal.int 1)])) "").map
        (fun st2 => ptContainsDoc st2 "") = Except.ok false
    ∧ (ptDelDoc (ptSetDoc emptyColl "" (PyVal.doc [("_id", PyVal.int 1)])) "").map
        (fun st2 => ptGetDoc st2 "") = Except.ok (Except.error StoreErr.notFound)
    ∧ sqGetDoc (sqSetDoc emptyColl "" (PyVal.doc [("_id", PyVal.int 1)])) ""
      = Except.ok (PyVal.doc [("_id", PyVal.int 1)])
    ∧ sqContainsDoc (sqSetDoc emptyColl "" (PyVal.doc [("_id", PyVal.int 1)])) ""
      = Except.ok true
    ∧ (sqDelDoc (sqSetDoc emptyColl "" (PyVal.doc [("_id", PyVal.int 1)])) "").map
        (fun st2 => sqContainsDoc st2 "") = Except.ok (Except.ok false)
    ∧ (sqDelDoc (sqSetDoc emptyColl "" (PyVal.doc [("_id", PyVal.int 1)])) "").map
        (fun st2 => sqGetDoc st2 "") = Except.ok (Except.error StoreErr.notFound)
    ∧ sqEncodeKey "" = ""
    ∧ h5EncodeKey "" = h5EmptySentinel
    ∧ ptEncodeKey "" = ptEmptySentinel :=
  claim4_empty_key_per_backend (PyVal.doc [("_id", PyVal.int 1)]) emptyColl
    emptyColl emptyColl rfl

/-- Counterexample to C4 as stated: after `set("", D)` the three backends
are caller-distinguishable — `contains(" ")` is true in the node-file
backend (the sentinel aliases the key `" "`) but false in the other two;
and the relational backend substitutes no sentinel at all. -/
theorem claim4_counterexample :
    ptContainsDoc (ptSetDoc emptyColl "" (PyVal.doc [])) " " = true
    ∧ h5ContainsDoc (h5SetDoc emptyColl "" (PyVal.doc [])) " " = false
    ∧ sqContainsDoc (sqSetDoc emptyColl "" (PyVal.doc [])) " " = Except.ok false
    ∧ sqEncodeKey "" = ""
    ∧ ptEncodeKey " " = ptEncodeKey "" :=
  ⟨rfl, rfl, rfl, rfl, rfl⟩

/-- Claim C8: after `rename(old, new)` on a database's collection (old
cached, its artifact present, old ≠ new), the entry reachable under new
has the pre-rename contents of old, old is no longer discoverable in
either the medium or the cache, and the cache is re-keyed so that new
points at the same Collection Store handle old pointed at — in the
relational and the group backends alike. -/
theorem claim8_rename_relocates (stq : DBState String) (sth : DBState HKey)
    (old new : String) (hdlq hdlh : Nat)
    (cq : CollState String) (ch : CollState HKey) (hne : old ≠ new)
    (hq1 : AList.find? stq.cache old = Option.some hdlq)
    (hq2 : AList.find? stq.medium old = Option.some cq)
    (hh1 : AList.find? sth.cache old = Option.some hdlh)
    (hh2 : AList.find? sth.medium old = Option.some ch) :
    (∃ st2, sqDbRename stq old new = Except.ok st2
      ∧ AList.find? st2.medium new = Option.some cq
      ∧ AList.find? st2.medium old = Option.none
      ∧ AList.find? st2.cache new = Option.some hdlq
      ∧ AList.find? st2.cache old = Option.none)
    ∧ (∃ st2, h5DbRename sth old new = Except.ok st2
      ∧ AList.find? st2.medium new = Option.some ch
      ∧ AList.find? st2.medium old = Option.none
      ∧ AList.find? st2.cache new = Option.some hdlh
      ∧ AList.find? st2.cache old = Option.none) := by
  have hno : new ≠ old := fun hcontra => hne hcontra.symm
  constructor
  · refine ⟨{ medium := AList.insert (AList.eraseKey stq.medium old) new cq
              cache := AList.insert (AList.eraseKey stq.cache old) new hdlq
              next := stq.next }, ?_, ?_, ?_, ?_, ?_⟩
    · simp only [sqDbRename, hq1, hq2]
    · exact AList.find?_insert_self _ _ _
    · rw [show ({ medium := AList.insert (AList.eraseKey stq.medium old) new cq
                  cache := AList.insert (AList.eraseKey stq.cache old) new hdlq
                  next := stq.next } : DBState String).medium
            = AList.insert (AList.eraseKey stq.medium old) new cq from rfl]
      rw [AList.find?_insert_ne _ new old _ hno, AList.find?_eraseKey_self]
    · exact AList.find?_insert_self _ _ _
    · rw [show ({ medium := AList.insert (AList.eraseKey stq.medium old) new cq
                  cache := AList.insert (AList.eraseKey stq.cache old) new hdlq
                  next := stq.next } : DBState String).cache
            = AList.insert (AList.eraseKey stq.cache old) new hdlq from rfl]
      rw [AList.find?_insert_ne _ new old _ hno, AList.find?_eraseKey_self]
  · refine ⟨{ medium :=
                AList.insert (AList.eraseKey (AList.eraseKey sth.medium new) old) new ch
              cache := AList.insert (AList.eraseKey sth.cache old) new hdlh
              next := sth.next }, ?_, ?_, ?_, ?_, ?_⟩
    · simp only [h5DbRename, hh1, hh2]
    · exact AList.find?_insert_self _ _ _
    · rw [show ({ medium :=
                    AList.insert (AList.eraseKey (AList.eraseKey sth.medium new) old) new ch
                  cache := AList.insert (AList.eraseKey sth.cache old) new hdlh
                  next := sth.next } : DBState HKey).medium
            = AList.insert (AList.eraseKey (AList.eraseKey sth.medium new) old) new ch
          from rfl]
      rw [AList.find?_insert_ne _ new old _ hno, AList.find?_eraseKey_self]
    · exact AList.find?_insert_self _ _ _
    · rw [show ({ medium :=
                    AList.insert (AList.eraseKey (AList.eraseKey sth.medium new) old) new ch
                  cache := AList.insert (AList.eraseKey sth.cache old) new hdlh
                  next := sth.next } : DBState HKey).cache
            = AList.insert (AList.eraseKey sth.cache old) new hdlh from rfl]
      rw [AList.find?_insert_ne _ new old _ hno, AList.find?_eraseKey_self]

/-- Witness for C8: renaming the cached, populated collection `a` to `b`. -/
theorem claim8_rename_relocates_witness :
    (∃ st2, sqDbRename
        { medium := [("a", (emptyColl : CollState String))], cache := [("a", 0)]
          next := 1 } "a" "b" = Except.ok st2
      ∧ AList.find? st2.medium "b" = Option.some (emptyColl : CollState String)
      ∧ AList.find? st2.medium "a" = Option.none
      ∧ AList.find? st2.cache "b" = Option.some 0
      ∧ AList.find? st2.cache "a" = Option.none)
    ∧ (∃ st2, h5DbRename
        { medium := [("a", (emptyColl : CollState HKey))], cache := [("a", 0)]
          next := 1 } "a" "b" = Except.ok st2
      ∧ AList.find? st2.medium "b" = Option.some (emptyColl : CollState HKey)
      ∧ AList.find? st2.medium "a" = Option.none
      ∧ AList.find? st2.cache "b" = Option.some 0
      ∧ AList.find? st2.cache "a" = Option.none) :=
  claim8_rename_relocates
    { medium := [("a", emptyColl)], cache := [("a", 0)], next := 1 }
    { medium := [("a", emptyColl)], cache := [("a", 0)], next := 1 }
    "a" "b" 0 0 emptyColl emptyColl (by decide) rfl rfl rfl rfl

theorem ttlSyncB_collDropIndex {κ : Type} [DecidableEq κ] (sweep : ExpirySweep κ)
    (st : CollState κ) (name : String) (h : ttlSyncB st = true) :
    ttlSyncB (collDropIndex sweep st name).2 = true := by
  cases hfi : AList.find? st.indexes name with
  | some d =>
    have hst : (collDropIndex sweep st name).2
        = { docs := sweep st.docs, indexes := AList.eraseKey st.indexes name
            ttl := AList.eraseKey st.ttl name, forced := st.forced } := by
      simp [collDropIndex, hfi]
    rw [hst]
    exact ttlSyncOf_erase st.indexes st.ttl name h
  | none =>
    have hst : (collDropIndex sweep st name).2
        = { docs := sweep st.docs, indexes := st.indexes
            ttl := st.ttl, forced := st.forced } := by
      simp [collDropIndex, hfi]
    rw [hst]
    exact h

/-- Claim C9 (amended): `create_index(n, d)` registers `n` in the TTL
mapping exactly when `d` carries `expireAfterSeconds` with a non-null
value (for a name not already stored), and the TTL mapping stays equal to
the TTL-filtered index mapping across `create_index` on fresh names,
`drop_index` and `drop` — in every backend.  (Overwriting an existing
name with a descriptor of different TTL status breaks the sync; see the
counterexample.) -/
theorem claim9_ttl_registration_and_sync (st : CollState HKey)
    (stp sts : CollState String) (sweep : ExpirySweep HKey)
    (n m : String) (d : PyVal)
    (ha : AList.find? st.indexes n = Option.none) (hb : ttlSyncB st = true)
    (hc : AList.find? stp.indexes n = Option.none) (hd : ttlSyncB stp = true)
    (he : AList.find? sts.indexes n = Option.none) (hf : ttlSyncB sts = true) :
    (AList.find? (h5CreateIndex st n d).ttl n).isSome = hasTTL d
    ∧ ttlSyncB (h5CreateIndex st n d) = true
    ∧ (AList.find? (ptCreateIndex stp n d).ttl n).isSome = hasTTL d
    ∧ ttlSyncB (ptCreateIndex stp n d) = true
    ∧ (AList.find? (sqCreateIndex sts n d).ttl n).isSome = hasTTL d
    ∧ ttlSyncB (sqCreateIndex sts n d) = true
    ∧ ttlSyncB (collDropIndex sweep st m).2 = true
    ∧ ttlSyncB (grpDrop st) = true
    ∧ ttlSyncB (sqDrop sts) = true := by
  have httlh := ttl_find?_none_of_sync st.indexes st.ttl n ha hb
  have httlp := ttl_find?_none_of_sync stp.indexes stp.ttl n hc hd
  have httls := ttl_find?_none_of_sync sts.indexes sts.ttl n he hf
  refine ⟨?_, ?_, ?_, ?_, ?_, ?_, ttlSyncB_collDropIndex sweep st m hb, rfl, rfl⟩
  · by_cases hdt : hasTTL d = true
    · rw [hdt]
      simp only [h5CreateIndex, if_pos hdt, AList.find?_insert_self, Option.isSome_some]
    · have hdf := Bool.not_eq_true (hasTTL d) ▸ hdt
      rw [hdf]
      simp only [h5CreateIndex, if_neg hdt, httlh, Option.isSome_none]
  · rw [show ttlSyncB (h5CreateIndex st n d)
        = ttlSyncOf (AList.insert st.indexes n (bsonNorm d))
            (if hasTTL d then AList.insert st.ttl n (bsonNorm d) else st.ttl) from rfl]
    rw [AList.insert_of_find?_none ha]
    have happ := ttlSyncOf_append st.indexes st.ttl n (bsonNorm d) (bsonNorm d) ha hb
    rw [hasTTL_bsonNorm_val] at happ
    by_cases hdt : hasTTL d = true
    · rw [if_pos hdt] at happ ⊢
      rw [AList.insert_of_find?_none httlh]
      exact happ
    · rw [if_neg hdt] at happ ⊢
      exact happ
  · by_cases hdt : hasTTL d = true
    · rw [hdt]
      simp only [ptCreateIndex, if_pos hdt, AList.find?_insertMove_self,
        Option.isSome_some]
    · have hdf := Bool.not_eq_true (hasTTL d) ▸ hdt
      rw [hdf]
      simp only [ptCreateIndex, if_neg hdt, httlp, Option.isSome_none]
  · rw [show ttlSyncB (ptCreateIndex stp n d)
        = ttlSyncOf (AList.insertMove stp.indexes n (bsonNorm d))
            (if hasTTL d then AList.insertMove stp.ttl n (bsonNorm d) else stp.ttl)
        from rfl]
    rw [AList.insertMove, AList.eraseKey_of_find?_none hc]
    have happ := ttlSyncOf_append stp.indexes stp.ttl n (bsonNorm d) (bsonNorm d) hc hd
    rw [hasTTL_bsonNorm_val] at happ
    by_cases hdt : hasTTL d = true
    · rw [if_pos hdt] at happ ⊢
      rw [AList.insertMove, AList.eraseKey_of_find?_none httlp]
      exact happ
    · rw [if_neg hdt] at happ ⊢
      exact happ
  · by_cases hdt : hasTTL d = true
    · rw [hdt]
      simp only [sqCreateIndex, if_pos hdt, AList.find?_insert_self, Option.isSome_some]
    · have hdf := Bool.not_eq_true (hasTTL d) ▸ hdt
      rw [hdf]
      simp only [sqCreateIndex, if_neg hdt, httls, Option.isSome_none]
  · rw [show ttlSyncB (sqCreateIndex sts n d)
        = ttlSyncOf (AList.insert sts.indexes n (bsonNorm d))
            (if hasTTL d then AList.insert sts.ttl n d else sts.ttl) from rfl]
    rw [AList.insert_of_find?_none he]
    have happ := ttlSyncOf_append sts.indexes sts.ttl n (bsonNorm d) d he hf
    rw [hasTTL_bsonNorm_val] at happ
    by_cases hdt : hasTTL d = true
    · rw [if_pos hdt] at happ ⊢
      rw [AList.insert_of_find?_none httls]
      exact happ
    · rw [if_neg hdt] at happ ⊢
      exact happ

/-- Witness for C9 (amended) at a fresh store, the TTL descriptor
`{key: [("x", 1)], expireAfterSeconds: 5}` and the identity sweep. -/
theorem claim9_ttl_registration_and_sync_witness :
    (AList.find? (h5CreateIndex emptyColl "i" ttlDesc).ttl "i").isSome = hasTTL ttlDesc
    ∧ ttlSyncB (h5CreateIndex emptyColl "i" ttlDesc) = true
    ∧ (AList.find? (ptCreateIndex emptyColl "i" ttlDesc).ttl "i").isSome = hasTTL ttlDesc
    ∧ ttlSyncB (ptCreateIndex emptyColl "i" ttlDesc) = true
    ∧ (AList.find? (sqCreateIndex emptyColl "i" ttlDesc).ttl "i").isSome = hasTTL ttlDesc
    ∧ ttlSyncB (sqCreateIndex emptyColl "i" ttlDesc) = true
    ∧ ttlSyncB (collDropIndex (fun ds => ds) (emptyColl : CollState HKey) "x").2 = true
    ∧ ttlSyncB (grpDrop (emptyColl : CollState HKey)) = true
    ∧ ttlSyncB (sqDrop emptyColl) = true :=
  claim9_ttl_registration_and_sync emptyColl emptyColl emptyColl (fun ds => ds)
    "i" "x" ttlDesc rfl rfl rfl rfl rfl rfl

/-- Counterexample to C9 as stated: calling `create_index("i", …)` twice —
first with a TTL descriptor, then overwriting with a TTL-free one —
leaves `"i"` in the TTL mapping while its stored descriptor carries no
`expireAfterSeconds`, so the TTL set is not the TTL-filtered index
mapping; and a descriptor carrying `expireAfterSeconds: None` (present
but null) is not registered at all. -/
theorem claim9_counterexample :
    (AList.find?
      (h5CreateIndex (h5CreateIndex emptyColl "i" ttlDesc) "i" plainDesc).ttl
      "i").isSome = true
    ∧ hasTTL plainDesc = false
    ∧ ttlSyncB (h5CreateIndex (h5CreateIndex emptyColl "i" ttlDesc) "i" plainDesc)
      = false
    ∧ AList.find?
        (h5CreateIndex emptyColl "j"
          (PyVal.doc [("key", PyVal.list []), ("expireAfterSeconds", PyVal.null)])).ttl
        "j" = Option.none :=
  ⟨rfl, rfl, rfl, rfl⟩

/-- Witness for C3 at a fresh store and the document `{}`. -/
theorem claim3_is_created_invariant_witness :
    grpIsCreated (collCreate (emptyColl : CollState HKey)) = true :=
  (claim3_is_created_invariant.2.2.2.2.2.1 emptyColl "k" "n" (PyVal.doc [])).1

/-- Witness for C6 at a fresh store. -/
theorem claim6_drop_resets_and_stays_writable_witness :
    grpIsCreated (grpDrop (emptyColl : CollState HKey)) = false :=
  (claim6_drop_resets_and_stays_writable.1 emptyColl).2

/-- Witness for C7 at a fresh store, the identity sweep and the index
name `i`. -/
theorem claim7_drop_index_spec_witness :
    (collDropIndex (fun ds => ds) (emptyColl : CollState HKey) "i").1
      = Except.error StoreErr.notFound
      ↔ AList.find? (emptyColl : CollState HKey).indexes "i" = Option.none :=
  (claim7_drop_index_spec HKey (fun ds => ds) emptyColl "i").1

/-- Witness for C2 (amended) at the concrete pre-populated state. -/
theorem claim2_contains_formula_witness :
    dbContains sqIsCreated dbCexState "c"
      = ((AList.find? dbCexState.cache "c").isSome
          && dbGetItemIsCreated sqIsCreated dbCexState "c") :=
  (claim2_contains_formula String sqIsCreated dbCexState
    { disk := [], dbs := [] } "c").1

end LiteMongo
